import Mathlib

/-!
Verification of the `stella` convolutional-neural-network pipeline
(`src/stella/neural_network.py`) against its natural-language specification.

The numeric code is embedded shallowly over `ℚ`: numpy arrays become
`List ℚ` (or `List (Option ℚ)` where a `NaN` entry is meaningful), Python
exceptions become `Except PyError`, and the process-wide random draws of
`np.random.normal` become explicit noise parameters.  Square roots
(`np.nanstd`) are handled exactly: the gap-detection comparison
`diff >= median + sigma*std` is encoded by the equivalent rational
comparison on squares (see `gapCond_iff_real`), and the one place a raw
standard deviation is *stored* (`avg_noise = np.nanstd(f)/2`) is threaded
through as a parameter because its (irrational) value influences none of
the stated properties.
-/

namespace Stella

/-! ## numpy primitives over ℚ -/

/-- Python slice `xs[a:b]` for `0 ≤ a ≤ b` (out-of-range bounds clamp). -/
def pySlice (xs : List ℚ) (a b : ℕ) : List ℚ :=
  (xs.drop a).take (b - a)

/-- Embedding of `np.diff`: successive differences `xs[i+1] - xs[i]`. -/
def npDiff (xs : List ℚ) : List ℚ :=
  (xs.zip xs.tail).map (fun p => p.2 - p.1)

/-- Embedding of `np.nanmedian` on a NaN-free array: middle element of the sorted list,
or the average of the two middle elements for even length.  (The empty
case, `NaN` in numpy, is given the junk value `0`; it is only ever reached
when the gap-detection set is empty anyway.) -/
def npMedian (xs : List ℚ) : ℚ :=
  let s := List.insertionSort (· ≤ ·) xs
  let n := xs.length
  if n = 0 then 0
  else if n % 2 = 1 then s.getD (n / 2) 0
  else (s.getD (n / 2 - 1) 0 + s.getD (n / 2) 0) / 2

/-- Embedding of `np.mean` on a NaN-free array (junk value `0` for the empty array). -/
def npMean (xs : List ℚ) : ℚ :=
  xs.sum / xs.length

/-- Population variance, i.e. the square of `np.nanstd` (`ddof = 0`). -/
def npVar (xs : List ℚ) : ℚ :=
  (xs.map (fun x => (x - npMean xs) ^ 2)).sum / xs.length

/-- The gap test `d >= m + sigma * sqrt v` of `fill_in_sample`
(line 548), encoded in ℚ: for `0 ≤ sigma` and `0 ≤ v` it is equivalent to
`0 ≤ d - m ∧ sigma^2 * v ≤ (d - m)^2` (proved in `gapCond_iff_real`). -/
def gapCond (d m sigma v : ℚ) : Bool :=
  decide (0 ≤ d - m) && decide (sigma ^ 2 * v ≤ (d - m) ^ 2)

/-- Line 548: `np.where(diff >= nanmedian(diff) + sigma*nanstd(diff))[0]`,
the (ascending) indices of abnormally large time gaps. -/
def gapIndices (t : List ℚ) (sigma : ℚ) : List ℕ :=
  let diff := npDiff t
  let m := npMedian diff
  let v := npVar diff
  (List.range diff.length).filter (fun i => gapCond (diff.getD i 0) m sigma v)

/-- Embedding of `np.arange a b step` for `step > 0`: values `a + k*step` while `< b`
(length `⌈(b-a)/step⌉`).  Non-positive steps never occur here (steps are
medians of differences of strictly increasing times); they yield `[]`. -/
def npArange (a b step : ℚ) : List ℚ :=
  if 0 < step then
    (List.range (((b - a) / step).ceil.toNat)).map (fun k => a + k * step)
  else []

/-- Embedding of `np.insert xs i vals`: insert `vals` before position `i`. -/
def npInsert (xs : List ℚ) (i : ℕ) (vals : List ℚ) : List ℚ :=
  xs.take i ++ vals ++ xs.drop i

/-- Embedding of `scipy.interpolate.interp1d` through the two points `(t0, f0)`,
`(t1, f1)`, i.e. the exact linear interpolant.  (Values only; its
`bounds_error` behaviour is immaterial to the stated invariants, which do
not depend on interpolated flux values.)  Division is total ℚ division. -/
def interpLin (t0 t1 f0 f1 x : ℚ) : ℚ :=
  f0 + (f1 - f0) * (x - t0) / (t1 - t0)

/-! ## The windowing loop of `predict` (lines 585, 590-621)

Only the emitted flux window `f` is modelled: the per-window time axis
computed by the source (`tsteps`, `tstep_padding`, `t`) is dead code — it
is never stored in `reshaped_data` and does not enter `fill_length`. -/

/-- The window the loop body (lines 596-621) computes for sample index
`i`, over the already normalized flux `lc`.  `cadence_pad = int(cadences/2)`;
the branch guard `i <= cadences/2` is the exact rational comparison
`2*i ≤ cadences`, and `i >= len(lc)-cadence_pad` is `len(lc) ≤ i + cadence_pad`
(in Python the right-hand side may be negative, which the ℕ form matches). -/
def windowAt (lc : List ℚ) (cadences : ℕ) (i : ℕ) : List ℚ :=
  let n := lc.length
  let cadence_pad := cadences / 2
  if 2 * i ≤ cadences then
    List.replicate (cadence_pad - i) 0 ++ lc.take (i + cadence_pad)
  else if n ≤ i + cadence_pad then
    let slice := pySlice lc (i - cadence_pad) n
    slice ++ List.replicate (((cadences : ℤ) - slice.length).natAbs) 0
  else
    pySlice lc (i - cadence_pad) (i + cadence_pad)

/-- Lines 585 and 590-621 of `predict`: the flux is normalized by its
median (`lc = lc/np.nanmedian(lc)`), then one window is built per sample
index `i in range(len(lc))`. -/
def buildWindows (lc : List ℚ) (cadences : ℕ) : List (List ℚ) :=
  let nlc := lc.map (· / npMedian lc)
  (List.range nlc.length).map (fun i => windowAt nlc cadences i)

/-! ## `fill_in_sample` (lines 542-566): gap detection and filling -/

/-- The running `(t, f, e)` arrays of `fill_in_sample`. -/
structure LCState where
  t : List ℚ
  f : List ℚ
  e : List ℚ

/-- One iteration of the gap-filling loop (lines 552-564) at flagged index
`i`: linearly interpolate flux between the current `t[i]` and `t[i+1]` on
an `np.arange` grid with the (pre-loop) median step, add per-sample noise
(`np.random.normal`, modelled by the explicit `noise` function), and
insert the new samples before position `i` in all three arrays, with
`avg_noise` as the error value of every synthetic sample. -/
def fillGap (medDiff avgNoise : ℚ) (noise : ℕ → ℚ) (s : LCState) (i : ℕ) : LCState :=
  let t0 := s.t.getD i 0
  let t1 := s.t.getD (i + 1) 0
  let f0 := s.f.getD i 0
  let f1 := s.f.getD (i + 1) 0
  let newTime := npArange t0 t1 medDiff
  let newFlux := newTime.enum.map (fun p => interpLin t0 t1 f0 f1 p.2 + noise p.1)
  { t := npInsert s.t i newTime
    f := npInsert s.f i newFlux
    e := npInsert s.e i (List.replicate newTime.length avgNoise) }

/-- Lines 546-564: detect the abnormal gaps of the ORIGINAL time array and
process them in ascending order, each iteration mutating the arrays.
`avgNoise` stands for `avg_noise = np.nanstd(f)/2.0` (line 549): a square
root, so it is threaded as a parameter; no claim depends on its value. -/
def fillInsertions (t f e : List ℚ) (sigma avgNoise : ℚ) (noise : ℕ → ℕ → ℚ) : LCState :=
  (gapIndices t sigma).enum.foldl
    (fun s p => fillGap (npMedian (npDiff t)) avgNoise (noise p.1) s p.2)
    ⟨t, f, e⟩

/-- Comparison used by Python's `sorted(zip(t, f))`: lexicographic order
on (time, flux) pairs. -/
def pairLe (a b : ℚ × ℚ) : Prop :=
  a.1 < b.1 ∨ (a.1 = b.1 ∧ a.2 ≤ b.2)

instance : DecidableRel pairLe := fun a b => by unfold pairLe; infer_instance

instance : IsTotal (ℚ × ℚ) pairLe := by
  constructor
  intro a b
  rcases lt_trichotomy a.1 b.1 with h | h | h
  · exact Or.inl (Or.inl h)
  · rcases le_total a.2 b.2 with h2 | h2
    · exact Or.inl (Or.inr ⟨h, h2⟩)
    · exact Or.inr (Or.inr ⟨h.symm, h2⟩)
  · exact Or.inr (Or.inl h)

instance : IsTrans (ℚ × ℚ) pairLe := by
  constructor
  rintro a b c (hab | ⟨hab, hab2⟩) (hbc | ⟨hbc, hbc2⟩)
  · exact Or.inl (hab.trans hbc)
  · exact Or.inl (hbc ▸ hab)
  · exact Or.inl (hab ▸ hbc)
  · exact Or.inr ⟨hab.trans hbc, hab2.trans hbc2⟩

/-- Embedding of `fill_in_sample` (lines 542-566).  The final
`t, f = zip(*sorted(zip(t, f)))` is the lexicographic sort of the (time,
flux) pairs, leaving `e` untouched; on an empty pair list the Python
unpacking raises (`none`). -/
def fill_in_sample (t f e : List ℚ) (sigma avgNoise : ℚ) (noise : ℕ → ℕ → ℚ) :
    Option (List ℚ × List ℚ × List ℚ) :=
  let st := fillInsertions t f e sigma avgNoise noise
  let pairs := List.insertionSort pairLe (st.t.zip st.f)
  if pairs.isEmpty then none
  else some (pairs.map Prod.fst, pairs.map Prod.snd, st.e)

/-! ## Python-level error model, tables, and filenames -/

/-- The Python exceptions that the embedded functions can raise. -/
inductive PyError
  | valueError (msg : String)
  | keyError (key : String)
  | nameError (name : String)
  | indexError
deriving DecidableEq

/-- Names bound at module level of `neural_network.py` (lines 1-9):
the imports and the class.  Notably neither `threshold` nor `warnings`
is among them (nor are they Python builtins). -/
def moduleGlobals : List String :=
  ["os", "glob", "np", "tqdm", "tf", "keras", "interp1d", "Table", "Column",
   "__all__", "ConvNN"]

/-- Python name resolution at a use site: the enclosing local names, else
the module globals, else `NameError`. -/
def resolveName (localNames : List String) (n : String) : Except PyError Unit :=
  if localNames.contains n || moduleGlobals.contains n then .ok ()
  else .error (.nameError n)

/-- A saved prediction table: named columns of optionally-NaN values. -/
structure PredTable where
  cols : List (String × List (Option ℚ))
deriving DecidableEq

/-- Column lookup `tab[name]`: `KeyError` when absent. -/
def getCol (tab : PredTable) (name : String) : Except PyError (List (Option ℚ)) :=
  match tab.cols.find? (fun c => c.1 == name) with
  | some c => .ok c.2
  | none => .error (.keyError name)

/-- Round half to even on ℚ (the tie rule of `np.round`). -/
def roundHalfEven (q : ℚ) : ℤ :=
  let fl := q.floor
  let frac := q - fl
  if frac < 1/2 then fl
  else if 1/2 < frac then fl + 1
  else if fl % 2 = 0 then fl else fl + 1

/-- Embedding of `np.round(x, 3)`. -/
def round3 (q : ℚ) : ℚ :=
  (roundHalfEven (q * 1000) : ℚ) / 1000

/-- Embedding of `np.round(x, 4)`. -/
def round4 (q : ℚ) : ℚ :=
  (roundHalfEven (q * 10000) : ℚ) / 10000

/-- Embedding of `np.nanmean` of one row: mean of the non-NaN entries, `NaN` (`none`)
when every entry is NaN. -/
def nanmean (xs : List (Option ℚ)) : Option ℚ :=
  let vs := xs.filterMap id
  if vs.length = 0 then none else some (vs.sum / vs.length)

/-- Embedding of `np.nanmean(mean_arr, axis=0)` (line 325): elementwise NaN-ignoring
mean across the seed columns; `n` is the common row count. -/
def nanmeanRows (colsv : List (List (Option ℚ))) (n : ℕ) : List (Option ℚ) :=
  (List.range n).map (fun i => nanmean (colsv.map (fun c => c.getD i none)))

/-- Lines 331-334: `pred_round` starts at 0; entries with
`pred >= threshold` are set to 1, then entries with `pred < threshold` to
0.  A NaN mean fails both comparisons and stays 0. -/
def threshLabel (p : Option ℚ) (threshold : ℚ) : ℚ :=
  match p with
  | none => 0
  | some v => if threshold ≤ v then 1 else 0

/-- Python `'{0:04d}'.format n`: decimal digits, zero-padded to width 4. -/
def fmt04 (n : ℕ) : List Char :=
  let d := Nat.toDigits 10 n
  List.replicate (4 - d.length) '0' ++ d

/-- Shell-style glob matching as used by `glob.glob`: `*` matches any
(possibly empty) substring, other characters match literally. -/
def globMatch : List Char → List Char → Bool
  | [], s => s.isEmpty
  | c :: ps, s =>
    if c = '*' then s.tails.any (fun suf => globMatch ps suf)
    else
      match s with
      | [] => false
      | d :: ss => c == d && globMatch ps ss

/-- Line 303: the glob pattern
`"predval*i{epochs:04d}*_b{frac_balance}.txt"` of `create_df`
(`bal` stands for the `str()` of `self.frac_balance`). -/
def predvalPattern (epochs : ℕ) (bal : List Char) : List Char :=
  "predval*i".toList ++ fmt04 epochs ++ "*_b".toList ++ bal ++ ".txt".toList

/-- Lines 266-268: the name of the SINGLE validation-prediction file that
`train_models` writes when `save=True`:
`'predval' + '_i{epochs:04d}_b{frac_balance}.txt'` — no seed component. -/
def trainModelsPredvalName (epochs : ℕ) (bal : List Char) : List Char :=
  "predval_i".toList ++ fmt04 epochs ++ "_b".toList ++ bal ++ ".txt".toList

/-- Line 81: `self.predval_fmt = 'predval_s{0:04d}_i{1:04d}_b{2}.txt'`
formatted at `(seed, epochs, frac_balance)` — the per-seed template that
`train_models` never uses when saving. -/
def predvalFmt (seed epochs : ℕ) (bal : List Char) : List Char :=
  "predval_s".toList ++ fmt04 seed ++ "_i".toList ++ fmt04 epochs ++
    "_b".toList ++ bal ++ ".txt".toList

/-- Lexicographic comparison of filenames by character code, the order of
`np.sort` on an array of strings. -/
def charListLe : List Char → List Char → Bool
  | [], _ => true
  | _ :: _, [] => false
  | a :: as, b :: bs =>
    if a < b then true else if b < a then false else charListLe as bs

/-- Name order on `(filename, contents)` directory entries. -/
def fileLe (a b : List Char × PredTable) : Prop :=
  charListLe a.1 b.1 = true

instance : DecidableRel fileLe := fun a b => by unfold fileLe; infer_instance

/-- Lines 301-304:
`np.sort(glob.glob(os.path.join(output_dir, "predval*i{epochs:04d}*_b{bal}.txt")))`.
A directory is modelled as a list of `(filename, contents)` pairs;
the matching entries are sorted by name. -/
def matchedFiles (dir : List (List Char × PredTable)) (epochs : ℕ) (bal : List Char) :
    List (List Char × PredTable) :=
  List.insertionSort fileLe
    (dir.filter (fun p => globMatch (predvalPattern epochs bal) p.1))

/-- Python `str.split sep` for a nonempty separator, via a fuel argument for
structural recursion; fuel `s.length` always suffices. -/
def pySplitAux (sep : List Char) : ℕ → List Char → List Char → List (List Char)
  | 0, acc, s => [acc.reverse ++ s]
  | _ + 1, acc, [] => [acc.reverse]
  | fuel + 1, acc, c :: cs =>
    if sep.isPrefixOf (c :: cs) then
      acc.reverse :: pySplitAux sep fuel [] ((c :: cs).drop sep.length)
    else pySplitAux sep fuel (c :: acc) cs

/-- Python `s.split(sep)` (`sep` nonempty). -/
def pySplit (sep s : List Char) : List (List Char) :=
  pySplitAux sep s.length [] s

/-- Line 321: the seed column name
`'s' + (val.split('_s')[-1]).split('_')[0]` parsed from the file name. -/
def seedColName (fname : List Char) : String :=
  String.mk
    ('s' :: (pySplit "_".toList ((pySplit "_s".toList fname).getLastD [])).headD [])

/-- Line 320/323: `np.round(r['pred'].data, 3)` (`np.round` maps NaN to
NaN, hence `Option.map`). -/
def npRound3Col (c : List (Option ℚ)) : List (Option ℚ) :=
  c.map (Option.map round3)

/-- The per-file loop of `create_df` (lines 317-323): read each table in
order, look up its `pred` column (`KeyError` aborts at the first file
lacking it), round to 3 decimals and store under the filename-derived
seed column name. -/
def readSeedCols :
    List (List Char × PredTable) → Except PyError (List (String × List (Option ℚ)))
  | [] => .ok []
  | fp :: rest =>
    match getCol fp.2 "pred" with
    | .error err => .error err
    | .ok c =>
      match readSeedCols rest with
      | .error err => .error err
      | .ok cs => .ok ((seedColName fp.1, npRound3Col c) :: cs)

/-- Line 311: the `ValueError` of `create_df` in `'metrics'` mode with
fewer than 2 prediction files. -/
def insufficientModelsError : PyError :=
  .valueError "Can only calculate metrics for multiple models."

/-- The table `create_df` returns: identity columns, one rounded column
per seed file, the ensemble-mean column `pred`, and the thresholded
`pred_round` column. -/
structure EnsembleDf where
  tic : List (Option ℚ)
  peak : List (Option ℚ)
  gt : List (Option ℚ)
  seedCols : List (String × List (Option ℚ))
  pred : List (Option ℚ)
  pred_round : List ℚ
deriving DecidableEq

/-- Embedding of `create_df` (lines 280-336) for `data_set='validation'`.  Beyond the
loop: line 325 adds the NaN-ignoring mean column, lines 327-329 read the
`gt`, `tpeak` and `# tic` columns of the loop variable `r` (the LAST
file; `NameError` on `r` if the loop never ran), lines 331-334 threshold
the mean.  `mode is 'metrics'` compares interned literals, i.e. equality. -/
def create_df (dir : List (List Char × PredTable)) (epochs : ℕ) (bal : List Char)
    (threshold : ℚ) (mode : String) : Except PyError EnsembleDf :=
  let files := matchedFiles dir epochs bal
  if mode == "metrics" && decide (files.length < 2) then
    .error insufficientModelsError
  else
    match readSeedCols files with
    | .error err => .error err
    | .ok seedCols =>
      let meanArr := seedCols.map Prod.snd
      let pred := nanmeanRows meanArr (meanArr.headD []).length
      match files.getLast? with
      | none => .error (.nameError "r")
      | some fp =>
        match getCol fp.2 "gt" with
        | .error err => .error err
        | .ok gt =>
          match getCol fp.2 "tpeak" with
          | .error err => .error err
          | .ok peak =>
            match getCol fp.2 "# tic" with
            | .error err => .error err
            | .ok tic =>
              .ok ⟨tic, peak, gt, seedCols, pred,
                pred.map (fun p => threshLabel p threshold)⟩

/-! ## `train_models` saved artifacts (lines 219-277) -/

/-- Lines 221-222 and 251: the validation prediction table accumulated by
`train_models`: identity columns `tic`, `gt`, `tpeak` plus one
`pred_s{seed:04d}` column per trained seed. -/
def trainModelsValTable (seeds : List ℕ) (valPreds : ℕ → List (Option ℚ))
    (tic gt tpeak : List (Option ℚ)) : PredTable :=
  ⟨[("tic", tic), ("gt", gt), ("tpeak", tpeak)] ++
    seeds.map (fun s => (String.mk ("pred_s".toList ++ fmt04 s), valPreds s))⟩

/-- Lines 265-277: with `save=True`, `train_models` writes the histories
file and ONE validation-prediction file, named `trainModelsPredvalName`
with no seed component (plus a `predtest` file when test predictions were
made); the per-seed template `predval_fmt` of `__init__` is never
consulted.  Only the file names matter to the claims, so the histories
and predtest contents stay abstract. -/
def trainModelsSavedDir (seeds : List ℕ) (epochs : ℕ) (bal : List Char)
    (valPreds : ℕ → List (Option ℚ)) (tic gt tpeak : List (Option ℚ))
    (histTable testTable : PredTable) (savesTest : Bool) :
    List (List Char × PredTable) :=
  [("histories_i".toList ++ fmt04 epochs ++ "_b".toList ++ bal ++ ".txt".toList,
      histTable),
   (trainModelsPredvalName epochs bal,
      trainModelsValTable seeds valPreds tic gt tpeak)] ++
  (if savesTest then
    [("predtest_i".toList ++ fmt04 epochs ++ "_b".toList ++ bal ++ ".txt".toList,
        testTable)]
   else [])

/-! ## `ensemble_metrics` (lines 338-390) -/

/-- The metric attributes that lines 386-390 would set. -/
structure MetricsAttrs where
  average_precision : ℚ
  accuracy : ℚ
  recall_score : ℚ
  precision_score : ℚ
  prec_recall_curve : List ℚ × List ℚ
deriving DecidableEq

/-- Column lookup in a plain (NaN-free) table. -/
def getColQ (df : List (String × List ℚ)) (name : String) :
    Except PyError (List ℚ) :=
  match df.find? (fun c => c.1 == name) with
  | some c => .ok c.2
  | none => .error (.keyError name)

/-- The local names in scope inside the per-column loop of
`ensemble_metrics` (lines 361-375): the parameters, the sklearn imports
and the loop variables.  `threshold` is never bound — `ensemble_metrics`
takes no such parameter and the module has no such global. -/
def metricsLocalNames : List String :=
  ["self", "df", "precision_recall_curve", "average_precision_score",
   "precision_score", "recall_score", "ap", "ac", "rs", "ps", "i", "val", "arr"]

/-- One iteration of the per-column loop (lines 364-375): append the
rounded average-precision score of the column, then evaluate
`arr[arr >= threshold] = 1.0`, which resolves the unbound name
`threshold`.  The accuracy append of lines 374-375 is unreachable (the
resolution never succeeds), so its placeholder value `0` is immaterial. -/
def metricsLoopStep (df : List (String × List ℚ)) (apScore : List ℚ → List ℚ → ℚ)
    (acc : List ℚ × List ℚ) (col : String × List ℚ) :
    Except PyError (List ℚ × List ℚ) :=
  match getColQ df "gt" with
  | .error err => .error err
  | .ok gt =>
    let ap := acc.1 ++ [round4 (apScore gt col.2)]
    match resolveName metricsLocalNames "threshold" with
    | .error err => .error err
    | .ok _ => .ok (ap, acc.2 ++ [0])

/-- The `for i, val in enumerate(df.columns[4:])` loop. -/
def metricsLoop (df : List (String × List ℚ)) (apScore : List ℚ → List ℚ → ℚ) :
    List ℚ × List ℚ → List (String × List ℚ) → Except PyError (List ℚ × List ℚ)
  | acc, [] => .ok acc
  | acc, col :: rest =>
    match metricsLoopStep df apScore acc col with
    | .error err => .error err
    | .ok acc2 => metricsLoop df apScore acc2 rest

/-- Embedding of `ensemble_metrics` (lines 338-390).  The table is its column list (in
astropy order); the sklearn scorers are abstract total functions.  After
the loop: `recall_score(df['gt'], df['pred_round'])`,
`precision_score(...)`, `precision_recall_curve(df['gt'], df['pred'])`,
then the assignments `self.average_precision = ap[-1]` (IndexError when
`ap` is empty), `self.accuracy = ac[-1]`, and the curve stored as
`[rec_curve, prec_curve]`. -/
def ensemble_metrics (df : List (String × List ℚ))
    (apScore recallFn precFn : List ℚ → List ℚ → ℚ)
    (curveFn : List ℚ → List ℚ → List ℚ × List ℚ) :
    Except PyError MetricsAttrs :=
  match metricsLoop df apScore ([], []) (df.drop 4) with
  | .error err => .error err
  | .ok apac =>
    match getColQ df "gt" with
    | .error err => .error err
    | .ok gt =>
      match getColQ df "pred_round" with
      | .error err => .error err
      | .ok pr =>
        let rs := round4 (recallFn gt pr)
        let ps := round4 (precFn gt pr)
        match getColQ df "pred" with
        | .error err => .error err
        | .ok pd =>
          let curve := curveFn gt pd
          match apac.1.getLast? with
          | none => .error .indexError
          | some apLast =>
            match apac.2.getLast? with
            | none => .error .indexError
            | some acLast =>
              .ok ⟨apLast, acLast, rs, ps, (curve.2, curve.1)⟩

/-! ## `fetch_dir` (lines 633-660) -/

/-- The local names in scope in the `except OSError` handler of
`fetch_dir` (lines 654-658). -/
def fetchDirLocalNames : List String := ["self", "download_dir"]

/-- Embedding of `fetch_dir` (lines 633-660).  `homeStellaExists` abstracts
`os.path.isdir('~/.stella')`; `mkdirSucceeds` abstracts whether
`os.mkdir` raises `OSError`.  In the handler, `download_dir` is
reassigned to `'.'` and then `warnings.warn(...)` is evaluated, which
resolves the name `warnings` — a module that lines 1-7 never import —
before `self.output_dir` could be assigned. -/
def fetch_dir (homeStellaExists mkdirSucceeds : Bool) : Except PyError String :=
  let download_dir := "~/.stella"
  if homeStellaExists then .ok download_dir
  else if mkdirSucceeds then .ok download_dir
  else
    let fallback_dir := "."
    match resolveName fetchDirLocalNames "warnings" with
    | .error err => .error err
    | .ok _ => .ok fallback_dir

/-! ## Concrete witness inputs -/

/-- A kfolds-style saved prediction table (header `# tic,pred,gt,tpeak`)
with a single row, used by the `create_df` witnesses. -/
def witnessTable (p : ℚ) : PredTable :=
  ⟨[("# tic", [some 1]), ("pred", [some p]), ("gt", [some 1]),
    ("tpeak", [some 0])]⟩

/-- A directory holding two seed prediction files that `create_df` can
consume (`epochs = 1`, `frac_balance` string `"1.0"`). -/
def witnessDir : List (List Char × PredTable) :=
  [("predval_s0001_i0001_b1.0.txt".toList, witnessTable (1/2)),
   ("predval_s0002_i0001_b1.0.txt".toList, witnessTable (1/4))]

/-- The table `create_df witnessDir 1 "1.0".toList (1/2) "metrics"`
produces. -/
def witnessDf : EnsembleDf :=
  ⟨[some 1], [some 0], [some 1],
   [("s0001", [some (1/2)]), ("s0002", [some (1/4)])],
   [some (3/8)], [0]⟩

/-! ## Theorems -/

theorem buildWindows_count (lc : List ℚ) (cadences : ℕ) :
    (buildWindows lc cadences).length = lc.length := by
  simp [buildWindows]

theorem windowAt_length_of_even (lc : List ℚ) (c i : ℕ)
    (hc : c % 2 = 0) (hn : c ≤ lc.length) (hi : i < lc.length) :
    (windowAt lc c i).length = c := by
  unfold windowAt pySlice
  dsimp only
  split
  · -- left-boundary branch: i ≤ c/2
    simp only [List.length_append, List.length_replicate, List.length_take]
    omega
  · split
    · -- right-boundary branch
      simp only [List.length_append, List.length_replicate, List.length_take,
        List.length_drop]
      omega
    · -- interior branch
      simp only [List.length_take, List.length_drop]
      omega

theorem getD_map_range {α : Type} (f : ℕ → α) (d : α) (n i : ℕ) (hi : i < n) :
    (((List.range n).map f).getD i d) = f i := by
  rw [List.getD_eq_getElem?_getD, List.getElem?_map, List.getElem?_range hi]
  rfl

/-- C1 counterexample: with an odd window width (`cadences = 5`) the window
emitted for index 0 of a 10-point light curve has length 4, not `cadences`. -/
theorem window_length_claim_false_for_odd_cadences :
    ((((buildWindows (List.replicate 10 (1 : ℚ)) 5).getD 0 []).length = 5) = False) := by
  with_unfolding_all (exact eq_false (of_decide_eq_false rfl))

/-- C1 (amended): for every EVEN window width `cadences` and every
gap-filled light curve with at least `cadences` samples, the windowing
loop of `predict` emits one window per sample index and every emitted
window has length exactly `cadences` — including the left-boundary and
right-boundary padding branches. -/
theorem window_length_even_cadences (lc : List ℚ) (c : ℕ)
    (hc : c % 2 = 0) (hn : c ≤ lc.length) :
    (buildWindows lc c).length = lc.length ∧
      ∀ w ∈ buildWindows lc c, w.length = c := by
  refine ⟨buildWindows_count lc c, ?_⟩
  intro w hw
  unfold buildWindows at hw
  simp only [List.mem_map, List.mem_range, List.length_map] at hw
  obtain ⟨i, hi, rfl⟩ := hw
  exact windowAt_length_of_even _ c i hc (by simpa using hn) (by simpa using hi)

theorem window_length_even_cadences_witness :
    (buildWindows [(3 : ℚ), 1, 4, 1, 5] 4).length = ([(3 : ℚ), 1, 4, 1, 5] : List ℚ).length ∧
      ∀ w ∈ buildWindows [(3 : ℚ), 1, 4, 1, 5] 4, w.length = 4 :=
  window_length_even_cadences [(3 : ℚ), 1, 4, 1, 5] 4 (by decide) (by decide)

/-- C6 counterexample: `cadences = 5`, 10 samples, `i = 3` is interior
(neither boundary branch applies), yet the emitted window — the exact
slice `flux[i-half : i+half]` — has length 4, not `cadences = 5`. -/
theorem interior_slice_claim_false_for_odd_cadences :
    ((2 * 3 ≤ 5) = False) ∧ (((10 : ℕ) ≤ 3 + 5 / 2) = False) ∧
      ((((buildWindows (List.replicate 10 (1 : ℚ)) 5).getD 3 []).length = 5) = False) := by
  refine ⟨by decide, by decide, ?_⟩
  with_unfolding_all (exact eq_false (of_decide_eq_false rfl))

/-- C6 (amended): for every EVEN `cadences`, at every interior sample
index `i` (neither the left- nor the right-boundary branch applies) the
emitted window equals exactly the median-normalized flux slice
`flux[i-half : i+half]` with no padding, where `half = cadences // 2`, and
that slice is exactly `cadences` wide.  (For odd `cadences` the slice is
only `cadences - 1` wide, see the counterexample.) -/
theorem interior_window_is_exact_slice (lc : List ℚ) (c i : ℕ)
    (hc : c % 2 = 0) (hleft : ¬ 2 * i ≤ c) (hright : ¬ lc.length ≤ i + c / 2) :
    (buildWindows lc c).getD i [] =
        pySlice (lc.map (· / npMedian lc)) (i - c / 2) (i + c / 2) ∧
      ((buildWindows lc c).getD i []).length = c := by
  have hi : i < lc.length := by omega
  have hwin : (buildWindows lc c).getD i [] =
      windowAt (lc.map (· / npMedian lc)) c i := by
    unfold buildWindows
    dsimp only
    rw [List.length_map, getD_map_range _ _ _ _ hi]
  have hlen : (lc.map (· / npMedian lc)).length = lc.length := List.length_map _ _
  constructor
  · rw [hwin]
    unfold windowAt
    dsimp only
    rw [if_neg hleft, if_neg (by rw [hlen]; exact hright)]
  · rw [hwin]
    exact windowAt_length_of_even _ c i hc (by omega) (by omega)

theorem interior_window_is_exact_slice_witness :
    (buildWindows (List.replicate 10 (1 : ℚ)) 4).getD 5 [] =
        pySlice ((List.replicate 10 (1 : ℚ)).map (· / npMedian (List.replicate 10 (1 : ℚ))))
          (5 - 4 / 2) (5 + 4 / 2) ∧
      ((buildWindows (List.replicate 10 (1 : ℚ)) 4).getD 5 []).length = 4 :=
  interior_window_is_exact_slice (List.replicate 10 (1 : ℚ)) 4 5
    (by decide) (by decide) (by decide)

/-- C7: for a 10-sample light curve with `cadences = 4` (`half = 2`), the
window built for index 0 is `[0, 0, flux[0], flux[1]]` in the
median-normalized flux: two zero-valued lead-in padding samples followed
by the first two normalized flux values.  (The windowing loop never reads
the time array when building the emitted flux windows, so the even spacing
of the 10 points plays no role beyond the spec example's setting.) -/
theorem window0_two_zero_padding_example (f : List ℚ) (h : f.length = 10) :
    (buildWindows f 4).getD 0 [] =
      [0, 0, f.getD 0 0 / npMedian f, f.getD 1 0 / npMedian f] := by
  have h0 : (0 : ℕ) < f.length := by omega
  have hwin : (buildWindows f 4).getD 0 [] =
      windowAt (f.map (· / npMedian f)) 4 0 := by
    unfold buildWindows
    dsimp only
    rw [List.length_map, getD_map_range _ _ _ _ h0]
  rw [hwin]
  unfold windowAt
  dsimp only
  rw [if_pos (by omega)]
  match f, h with
  | a :: b :: rest, _ => simp [List.replicate]

theorem window0_two_zero_padding_example_witness :
    (buildWindows [(3 : ℚ), 1, 4, 1, 5, 9, 2, 6, 5, 3] 4).getD 0 [] =
      [0, 0,
        ([(3 : ℚ), 1, 4, 1, 5, 9, 2, 6, 5, 3] : List ℚ).getD 0 0 /
          npMedian [(3 : ℚ), 1, 4, 1, 5, 9, 2, 6, 5, 3],
        ([(3 : ℚ), 1, 4, 1, 5, 9, 2, 6, 5, 3] : List ℚ).getD 1 0 /
          npMedian [(3 : ℚ), 1, 4, 1, 5, 9, 2, 6, 5, 3]] :=
  window0_two_zero_padding_example [(3 : ℚ), 1, 4, 1, 5, 9, 2, 6, 5, 3] (by decide)

theorem npVar_nonneg (xs : List ℚ) : 0 ≤ npVar xs := by
  unfold npVar
  apply div_nonneg _ (Nat.cast_nonneg _)
  apply List.sum_nonneg
  intro x hx
  obtain ⟨y, _, rfl⟩ := List.mem_map.mp hx
  positivity

/-- The ℚ-encoded gap test agrees with the real-valued comparison
`median + sigma * std ≤ d` that the source computes with `np.nanstd`. -/
theorem gapCond_iff_real (d m sigma v : ℚ) (hs : 0 ≤ sigma) (hv : 0 ≤ v) :
    gapCond d m sigma v = true ↔
      (m : ℝ) + (sigma : ℝ) * Real.sqrt (v : ℝ) ≤ (d : ℝ) := by
  unfold gapCond
  rw [Bool.and_eq_true, decide_eq_true_eq, decide_eq_true_eq]
  have hs' : (0 : ℝ) ≤ (sigma : ℝ) := by exact_mod_cast hs
  have hv' : (0 : ℝ) ≤ (v : ℝ) := by exact_mod_cast hv
  have hsv : (0 : ℝ) ≤ (sigma : ℝ) * Real.sqrt (v : ℝ) :=
    mul_nonneg hs' (Real.sqrt_nonneg _)
  constructor
  · rintro ⟨h1, h2⟩
    have h1' : (0 : ℝ) ≤ (d : ℝ) - (m : ℝ) := by exact_mod_cast h1
    have h2' : (sigma : ℝ) ^ 2 * (v : ℝ) ≤ ((d : ℝ) - (m : ℝ)) ^ 2 := by
      exact_mod_cast h2
    have key : (sigma : ℝ) * Real.sqrt (v : ℝ) ≤ (d : ℝ) - (m : ℝ) := by
      have := Real.sqrt_le_sqrt h2'
      rwa [Real.sqrt_mul (sq_nonneg _), Real.sqrt_sq hs', Real.sqrt_sq h1'] at this
    linarith
  · intro h
    have h1' : (0 : ℝ) ≤ (d : ℝ) - (m : ℝ) := by linarith
    have key : ((sigma : ℝ) * Real.sqrt (v : ℝ)) ^ 2 ≤ ((d : ℝ) - (m : ℝ)) ^ 2 :=
      pow_le_pow_left₀ hsv (by linarith) 2
    rw [mul_pow, Real.sq_sqrt hv'] at key
    constructor
    · exact_mod_cast h1'
    · exact_mod_cast key

theorem npInsert_length (xs : List ℚ) (i : ℕ) (vals : List ℚ) :
    (npInsert xs i vals).length = xs.length + vals.length := by
  simp [npInsert]
  omega

theorem fillGap_length (m a : ℚ) (nz : ℕ → ℚ) (s : LCState) (i : ℕ) :
    ∃ k, (fillGap m a nz s i).t.length = s.t.length + k ∧
      (fillGap m a nz s i).f.length = s.f.length + k ∧
      (fillGap m a nz s i).e.length = s.e.length + k := by
  unfold fillGap
  dsimp only
  rw [npInsert_length, npInsert_length, npInsert_length]
  simp only [List.length_map, List.enum_length, List.length_replicate]
  exact ⟨_, rfl, rfl, rfl⟩

theorem foldl_fillGap_invariant (m a : ℚ) (nz : ℕ → ℕ → ℚ) (l : List (ℕ × ℕ))
    (s : LCState) (h1 : s.t.length = s.f.length) (h2 : s.f.length = s.e.length) :
    (l.foldl (fun s p => fillGap m a (nz p.1) s p.2) s).t.length =
        (l.foldl (fun s p => fillGap m a (nz p.1) s p.2) s).f.length ∧
      (l.foldl (fun s p => fillGap m a (nz p.1) s p.2) s).f.length =
        (l.foldl (fun s p => fillGap m a (nz p.1) s p.2) s).e.length ∧
      s.t.length ≤ (l.foldl (fun s p => fillGap m a (nz p.1) s p.2) s).t.length := by
  induction l generalizing s with
  | nil => exact ⟨h1, h2, le_refl _⟩
  | cons p rest ih =>
    simp only [List.foldl_cons]
    obtain ⟨k, hk1, hk2, hk3⟩ := fillGap_length m a (nz p.1) s p.2
    have := ih (fillGap m a (nz p.1) s p.2) (by omega) (by omega)
    omega

theorem zip_map_fst_snd_eq {α β : Type} (l : List (α × β)) :
    (l.map Prod.fst).zip (l.map Prod.snd) = l := by
  induction l with
  | nil => rfl
  | cons x xs ih => simp [ih]

theorem pairLe_fst_le {a b : ℚ × ℚ} (h : pairLe a b) : a.1 ≤ b.1 := by
  rcases h with h | ⟨h, _⟩
  · exact le_of_lt h
  · exact le_of_eq h

/-- C4: for every light curve (equal-length time/flux/error arrays, time
strictly increasing) in which no successive time difference reaches
`median(diff) + sigma*std(diff)`, `fill_in_sample` returns the input
time, flux and error values unchanged, for every noise draw and every
`avg_noise` value.  (Nonemptiness is required: on an empty curve the
final `t, f = zip(*sorted(zip(t, f)))` unpacking raises.) -/
theorem fill_identity_when_no_abnormal_gaps
    (t f e : List ℚ) (sigma avgNoise : ℚ) (noise : ℕ → ℕ → ℚ)
    (hs : 0 ≤ sigma)
    (hlen1 : t.length = f.length) (hlen2 : f.length = e.length)
    (hne : t ≠ [])
    (hincr : List.Chain' (· < ·) t)
    (hnogap : ∀ d ∈ npDiff t,
      (d : ℝ) < (npMedian (npDiff t) : ℝ) +
        (sigma : ℝ) * Real.sqrt ((npVar (npDiff t) : ℚ) : ℝ)) :
    fill_in_sample t f e sigma avgNoise noise = some (t, f, e) := by
  have hgaps : gapIndices t sigma = [] := by
    unfold gapIndices
    dsimp only
    rw [List.filter_eq_nil_iff]
    intro i hi
    rw [List.mem_range] at hi
    have hd : (npDiff t).getD i 0 ∈ npDiff t := by
      rw [List.getD_eq_getElem _ _ hi]
      exact List.getElem_mem _
    intro hcond
    rw [gapCond_iff_real _ _ _ _ hs (npVar_nonneg _)] at hcond
    exact absurd hcond (not_le.mpr (hnogap _ hd))
  have hst : fillInsertions t f e sigma avgNoise noise = ⟨t, f, e⟩ := by
    unfold fillInsertions
    rw [hgaps]
    rfl
  unfold fill_in_sample
  rw [hst]
  dsimp only
  have hsorted : List.Sorted pairLe (t.zip f) := by
    have hp : List.Pairwise (· < ·) t := List.chain'_iff_pairwise.mp hincr
    have hzip : (t.zip f).map Prod.fst = t := List.map_fst_zip t f (by omega)
    rw [← hzip, List.pairwise_map] at hp
    exact hp.imp (fun h => Or.inl h)
  rw [List.Sorted.insertionSort_eq hsorted]
  have hnonempty : t.zip f ≠ [] := by
    cases t with
    | nil => exact absurd rfl hne
    | cons a t' =>
      cases f with
      | nil => simp at hlen1
      | cons b f' => simp
  rw [if_neg (by simpa [List.isEmpty_iff] using hnonempty)]
  rw [List.map_fst_zip t f (by omega), List.map_snd_zip t f (by omega)]

theorem fill_identity_when_no_abnormal_gaps_witness :
    fill_in_sample [0, 1, 2, 3, 5] [1, 2, 3, 4, 5] [1, 1, 1, 1, 1]
        (5/2) 1 (fun _ _ => 0) =
      some ([0, 1, 2, 3, 5], [1, 2, 3, 4, 5], [1, 1, 1, 1, 1]) := by
  apply fill_identity_when_no_abnormal_gaps
  · norm_num
  · with_unfolding_all rfl
  · with_unfolding_all rfl
  · simp
  · norm_num [List.chain'_cons]
  · have hd : npDiff [0, 1, 2, 3, 5] = [1, 1, 1, 2] := by with_unfolding_all rfl
    have hm : npMedian [(1 : ℚ), 1, 1, 2] = 1 := by with_unfolding_all rfl
    have hv : npVar [(1 : ℚ), 1, 1, 2] = 3/16 := by with_unfolding_all rfl
    rw [hd, hm, hv]
    have hsq : (2/5 : ℝ) < Real.sqrt (((3/16 : ℚ) : ℚ) : ℝ) := by
      rw [show (((3/16 : ℚ) : ℚ) : ℝ) = 3/16 by push_cast; ring]
      rw [show (2/5 : ℝ) = Real.sqrt ((2/5) ^ 2) by
        rw [Real.sqrt_sq (by norm_num)]]
      apply Real.sqrt_lt_sqrt (by positivity)
      norm_num
    intro d hdm
    rw [show ((1 : ℚ) : ℝ) = 1 by push_cast; ring,
      show ((5/2 : ℚ) : ℝ) = 5/2 by push_cast; ring]
    simp only [List.mem_cons, List.not_mem_nil, or_false] at hdm
    rcases hdm with rfl | rfl | rfl | rfl
    all_goals push_cast; nlinarith [hsq]

/-- C5: after `fill_in_sample` runs on a light curve containing at least
one abnormal gap, the returned time sequence is sorted nondecreasing, the
returned (time, flux) pairs are a permutation of the post-insertion pairs
(flux follows the time sort), while the returned error array is exactly
the post-insertion error array — NOT reordered by the sort — and the
three returned sequences still have equal length. -/
theorem fill_sorts_pairs_not_errors
    (t f e : List ℚ) (sigma avgNoise : ℚ) (noise : ℕ → ℕ → ℚ)
    (_hs : 0 ≤ sigma)
    (hlen1 : t.length = f.length) (hlen2 : f.length = e.length)
    (_hincr : List.Chain' (· < ·) t)
    (hgap : ∃ d ∈ npDiff t,
      (npMedian (npDiff t) : ℝ) +
        (sigma : ℝ) * Real.sqrt ((npVar (npDiff t) : ℚ) : ℝ) ≤ (d : ℝ)) :
    ∃ t' f' e',
      fill_in_sample t f e sigma avgNoise noise = some (t', f', e') ∧
      List.Chain' (· ≤ ·) t' ∧
      (t'.zip f').Perm
        ((fillInsertions t f e sigma avgNoise noise).t.zip
          (fillInsertions t f e sigma avgNoise noise).f) ∧
      e' = (fillInsertions t f e sigma avgNoise noise).e ∧
      t'.length = f'.length ∧ f'.length = e'.length := by
  set st := fillInsertions t f e sigma avgNoise noise with hstdef
  obtain ⟨hl1, hl2, hgrow⟩ :=
    foldl_fillGap_invariant (npMedian (npDiff t)) avgNoise noise
      (gapIndices t sigma).enum ⟨t, f, e⟩ hlen1 hlen2
  have hst1 : st.t.length = st.f.length := hl1
  have hst2 : st.f.length = st.e.length := hl2
  have hst3 : t.length ≤ st.t.length := hgrow
  have ht2 : 2 ≤ t.length := by
    obtain ⟨d, hd, _⟩ := hgap
    have hne : npDiff t ≠ [] := List.ne_nil_of_mem hd
    have hlen : (npDiff t).length = t.length - 1 := by
      simp only [npDiff, List.length_map, List.length_zip, List.length_tail]
      omega
    have : 0 < (npDiff t).length := List.length_pos.mpr hne
    omega
  set pairs := List.insertionSort pairLe (st.t.zip st.f) with hpairs
  have hperm : pairs.Perm (st.t.zip st.f) := List.perm_insertionSort pairLe _
  have hplen : pairs.length = st.t.length := by
    rw [hperm.length_eq, List.length_zip]
    omega
  have hpne : pairs ≠ [] := by
    intro hnil
    rw [hnil] at hplen
    simp at hplen
    omega
  refine ⟨pairs.map Prod.fst, pairs.map Prod.snd, st.e, ?_, ?_, ?_, rfl, ?_, ?_⟩
  · unfold fill_in_sample
    dsimp only
    rw [← hstdef, ← hpairs, if_neg (by simpa [List.isEmpty_iff] using hpne)]
  · have hsorted : List.Sorted pairLe pairs := List.sorted_insertionSort pairLe _
    have hp : List.Pairwise (fun a b : ℚ × ℚ => a.1 ≤ b.1) pairs :=
      hsorted.imp pairLe_fst_le
    have : List.Pairwise (· ≤ ·) (pairs.map Prod.fst) :=
      (List.pairwise_map).mpr hp
    exact this.chain'
  · rw [zip_map_fst_snd_eq]
    exact hperm
  · simp
  · rw [List.length_map, hplen]
    omega

theorem fill_sorts_pairs_not_errors_witness :
    ∃ t' f' e',
      fill_in_sample [0, 1, 2, 3, 4, 5, 6, 17] [1, 1, 1, 1, 1, 1, 1, 1]
          [1, 1, 1, 1, 1, 1, 1, 1] (5/2) 1 (fun _ _ => 0) = some (t', f', e') ∧
      List.Chain' (· ≤ ·) t' ∧
      (t'.zip f').Perm
        ((fillInsertions [0, 1, 2, 3, 4, 5, 6, 17] [1, 1, 1, 1, 1, 1, 1, 1]
            [1, 1, 1, 1, 1, 1, 1, 1] (5/2) 1 (fun _ _ => 0)).t.zip
          (fillInsertions [0, 1, 2, 3, 4, 5, 6, 17] [1, 1, 1, 1, 1, 1, 1, 1]
            [1, 1, 1, 1, 1, 1, 1, 1] (5/2) 1 (fun _ _ => 0)).f) ∧
      e' = (fillInsertions [0, 1, 2, 3, 4, 5, 6, 17] [1, 1, 1, 1, 1, 1, 1, 1]
          [1, 1, 1, 1, 1, 1, 1, 1] (5/2) 1 (fun _ _ => 0)).e ∧
      t'.length = f'.length ∧ f'.length = e'.length := by
  apply fill_sorts_pairs_not_errors
  · norm_num
  · with_unfolding_all rfl
  · with_unfolding_all rfl
  · norm_num [List.chain'_cons]
  · have hd : npDiff [0, 1, 2, 3, 4, 5, 6, 17] = [1, 1, 1, 1, 1, 1, 11] := by
      with_unfolding_all rfl
    have hm : npMedian [(1 : ℚ), 1, 1, 1, 1, 1, 11] = 1 := by with_unfolding_all rfl
    have hv : npVar [(1 : ℚ), 1, 1, 1, 1, 1, 11] = 600/49 := by with_unfolding_all rfl
    refine ⟨11, ?_, ?_⟩
    · rw [hd]; simp
    · rw [hd, hm, hv]
      have h4 : Real.sqrt (((600/49 : ℚ) : ℚ) : ℝ) ≤ 4 := by
        rw [show (((600/49 : ℚ) : ℚ) : ℝ) = 600/49 by push_cast; ring]
        rw [show (4 : ℝ) = Real.sqrt (4 ^ 2) by rw [Real.sqrt_sq (by norm_num)]]
        apply Real.sqrt_le_sqrt
        norm_num
      push_cast
      nlinarith [h4]

theorem globMatch_self : ∀ l : List Char, globMatch l l = true := by
  intro l
  induction l with
  | nil => rfl
  | cons c ls ih =>
    show globMatch (c :: ls) (c :: ls) = true
    rw [globMatch]
    by_cases hc : c = '*'
    · rw [if_pos hc, List.any_eq_true]
      refine ⟨ls, ?_, ih⟩
      rw [List.mem_tails]
      exact ⟨[c], rfl⟩
    · rw [if_neg hc]
      simp [ih]

theorem globMatch_append_lit (lit : List Char) (p s : List Char)
    (h : globMatch p s = true) : globMatch (lit ++ p) (lit ++ s) = true := by
  induction lit with
  | nil => exact h
  | cons c cs ih =>
    show globMatch (c :: (cs ++ p)) (c :: (cs ++ s)) = true
    rw [globMatch]
    by_cases hc : c = '*'
    · rw [if_pos hc, List.any_eq_true]
      refine ⟨cs ++ s, ?_, ih⟩
      rw [List.mem_tails]
      exact ⟨[c], rfl⟩
    · rw [if_neg hc]
      simp [ih]

theorem globMatch_star_absorb (pre p s : List Char)
    (h : globMatch p s = true) : globMatch ('*' :: p) (pre ++ s) = true := by
  show globMatch ('*' :: p) (pre ++ s) = true
  rw [globMatch.eq_def]
  simp only [if_pos, List.any_eq_true]
  refine ⟨s, ?_, h⟩
  rw [List.mem_tails]
  exact ⟨pre, rfl⟩

theorem trainModels_name_matches_pattern (epochs : ℕ) (bal : List Char) :
    globMatch (predvalPattern epochs bal) (trainModelsPredvalName epochs bal) = true := by
  have hp : predvalPattern epochs bal =
      "predval".toList ++
        ('*' :: 'i' :: (fmt04 epochs ++ ('*' :: ("_b".toList ++ (bal ++ ".txt".toList))))) := by
    simp only [predvalPattern, List.append_assoc]
    rfl
  have hn : trainModelsPredvalName epochs bal =
      "predval".toList ++
        ('_' :: 'i' :: (fmt04 epochs ++ ("_b".toList ++ (bal ++ ".txt".toList)))) := by
    simp only [trainModelsPredvalName, List.append_assoc]
    rfl
  rw [hp, hn]
  apply globMatch_append_lit
  have g1 : globMatch ('*' :: ("_b".toList ++ (bal ++ ".txt".toList)))
      ("_b".toList ++ (bal ++ ".txt".toList)) = true := by
    have := globMatch_star_absorb [] _ _
      (globMatch_self ("_b".toList ++ (bal ++ ".txt".toList)))
    simpa using this
  have g2 : globMatch (('i' :: fmt04 epochs) ++ ('*' :: ("_b".toList ++ (bal ++ ".txt".toList))))
      (('i' :: fmt04 epochs) ++ ("_b".toList ++ (bal ++ ".txt".toList))) = true :=
    globMatch_append_lit _ _ _ g1
  have g3 := globMatch_star_absorb ['_'] _ _ g2
  simpa using g3

theorem getCol_error_eq (tab : PredTable) (name : String) (err : PyError)
    (h : getCol tab name = .error err) : err = .keyError name := by
  unfold getCol at h
  cases hf : tab.cols.find? (fun c => c.1 == name) with
  | none => rw [hf] at h; exact (Except.error.inj h).symm
  | some c => rw [hf] at h; exact absurd h (by simp)

theorem readSeedCols_error (l : List (List Char × PredTable)) :
    ∀ err, readSeedCols l = .error err → ∃ k, err = PyError.keyError k := by
  induction l with
  | nil => intro err h; exact absurd h (by simp [readSeedCols])
  | cons fp rest ih =>
    intro err h
    rw [readSeedCols] at h
    cases hc : getCol fp.2 "pred" with
    | error e2 =>
      rw [hc] at h
      exact ⟨"pred", (Except.error.inj h).symm.trans (getCol_error_eq _ _ _ hc)⟩
    | ok c =>
      rw [hc] at h
      dsimp only at h
      cases hr : readSeedCols rest with
      | error e3 =>
        rw [hr] at h
        obtain rfl : e3 = err := Except.error.inj h
        exact ih e3 hr
      | ok cs => rw [hr] at h; exact absurd h (by simp)

/-- C8: `create_df` in its default `'metrics'` mode fails with the
insufficient-models `ValueError` exactly when fewer than 2 per-seed
prediction files match the `predval` glob; with 2 or more it never fails
on that ground (any later failure is a different exception). -/
theorem create_df_needs_two_files (dir : List (List Char × PredTable))
    (epochs : ℕ) (bal : List Char) (threshold : ℚ) :
    create_df dir epochs bal threshold "metrics" = .error insufficientModelsError ↔
      (matchedFiles dir epochs bal).length < 2 := by
  unfold create_df
  dsimp only
  by_cases h : (matchedFiles dir epochs bal).length < 2
  · rw [if_pos (by simp [h])]
    simp [h]
  · rw [if_neg (by simp [h])]
    refine iff_of_false ?_ h
    intro hres
    cases h1 : readSeedCols (matchedFiles dir epochs bal) with
    | error err =>
      rw [h1] at hres
      obtain ⟨k, rfl⟩ := readSeedCols_error _ err h1
      simp [insufficientModelsError] at hres
    | ok cs =>
      rw [h1] at hres
      dsimp only at hres
      cases h2 : (matchedFiles dir epochs bal).getLast? with
      | none =>
        rw [h2] at hres
        simp [insufficientModelsError] at hres
      | some fp =>
        rw [h2] at hres
        dsimp only at hres
        cases h3 : getCol fp.2 "gt" with
        | error e3 =>
          rw [h3] at hres
          have := getCol_error_eq _ _ _ h3
          subst this
          simp [insufficientModelsError] at hres
        | ok gt =>
          rw [h3] at hres
          cases h4 : getCol fp.2 "tpeak" with
          | error e4 =>
            rw [h4] at hres
            have := getCol_error_eq _ _ _ h4
            subst this
            simp [insufficientModelsError] at hres
          | ok peak =>
            rw [h4] at hres
            cases h5 : getCol fp.2 "# tic" with
            | error e5 =>
              rw [h5] at hres
              have := getCol_error_eq _ _ _ h5
              subst this
              simp [insufficientModelsError] at hres
            | ok tic =>
              rw [h5] at hres
              simp at hres

theorem readSeedCols_mem (l : List (List Char × PredTable)) :
    ∀ cs, readSeedCols l = .ok cs →
      ∀ pr ∈ cs, ∃ fp ∈ l, ∃ c, getCol fp.2 "pred" = .ok c ∧
        pr.2 = npRound3Col c := by
  induction l with
  | nil =>
    intro cs h pr hpr
    rw [readSeedCols] at h
    obtain rfl := Except.ok.inj h
    exact absurd hpr (List.not_mem_nil _)
  | cons fp rest ih =>
    intro cs h pr hpr
    rw [readSeedCols] at h
    cases hc : getCol fp.2 "pred" with
    | error e => rw [hc] at h; exact absurd h (by simp)
    | ok c =>
      rw [hc] at h
      dsimp only at h
      cases hr : readSeedCols rest with
      | error e => rw [hr] at h; exact absurd h (by simp)
      | ok cs2 =>
        rw [hr] at h
        obtain rfl := Except.ok.inj h
        rcases List.mem_cons.mp hpr with rfl | hmem
        · exact ⟨fp, List.mem_cons_self _ _, c, hc, rfl⟩
        · obtain ⟨fp2, hfp2, c2, hc2, he⟩ := ih cs2 hr pr hmem
          exact ⟨fp2, List.mem_cons_of_mem _ hfp2, c2, hc2, he⟩

/-- C2: `create_df` rounds every per-seed prediction column to 3 decimal
places (`npRound3Col`); computes the `pred` column as the elementwise
NaN-ignoring mean of the (rounded) seed columns, so a row with
predictions `[0.2, 0.4, NaN]` gets mean `0.3`; and sets
`pred_round[i] = 1` exactly when `threshold ≤ mean[i]` — inclusive
boundary, so mean `0.5` at threshold `0.5` yields `1`. -/
theorem create_df_round_mean_threshold
    (dir : List (List Char × PredTable)) (epochs : ℕ) (bal : List Char)
    (threshold : ℚ) (mode : String) (df : EnsembleDf) :
    (create_df dir epochs bal threshold mode = .ok df →
      ((∀ pr ∈ df.seedCols, ∃ fp ∈ matchedFiles dir epochs bal, ∃ c,
          getCol fp.2 "pred" = .ok c ∧ pr.2 = npRound3Col c) ∧
        df.pred = nanmeanRows (df.seedCols.map Prod.snd)
          ((df.seedCols.map Prod.snd).headD []).length ∧
        df.pred_round = df.pred.map (fun p => threshLabel p threshold))) ∧
    nanmeanRows [npRound3Col [some (2/10)], npRound3Col [some (4/10)],
        npRound3Col [none]] 1 = [some (3/10)] ∧
    (∀ p : Option ℚ, ∀ th : ℚ, threshLabel p th = 1 ↔ ∃ v, p = some v ∧ th ≤ v) ∧
    threshLabel (some (1/2)) (1/2) = 1 := by
  refine ⟨?_, ?_, ?_, ?_⟩
  · intro hok
    unfold create_df at hok
    dsimp only at hok
    by_cases hcond :
        (mode == "metrics" && decide ((matchedFiles dir epochs bal).length < 2)) = true
    · rw [if_pos hcond] at hok
      exact absurd hok (by simp)
    · rw [if_neg hcond] at hok
      cases h1 : readSeedCols (matchedFiles dir epochs bal) with
      | error e => rw [h1] at hok; exact absurd hok (by simp)
      | ok seedCols =>
        rw [h1] at hok
        dsimp only at hok
        cases h2 : (matchedFiles dir epochs bal).getLast? with
        | none => rw [h2] at hok; exact absurd hok (by simp)
        | some fp =>
          rw [h2] at hok
          dsimp only at hok
          cases h3 : getCol fp.2 "gt" with
          | error e => rw [h3] at hok; exact absurd hok (by simp)
          | ok gt =>
            rw [h3] at hok
            dsimp only at hok
            cases h4 : getCol fp.2 "tpeak" with
            | error e => rw [h4] at hok; exact absurd hok (by simp)
            | ok peak =>
              rw [h4] at hok
              dsimp only at hok
              cases h5 : getCol fp.2 "# tic" with
              | error e => rw [h5] at hok; exact absurd hok (by simp)
              | ok tic =>
                rw [h5] at hok
                dsimp only at hok
                obtain rfl := (Except.ok.inj hok).symm
                exact ⟨readSeedCols_mem _ seedCols h1, rfl, rfl⟩
  · with_unfolding_all rfl
  · intro p th
    cases p with
    | none => simp [threshLabel]
    | some v =>
      simp only [threshLabel]
      by_cases hle : th ≤ v
      · rw [if_pos hle]; simp [hle]
      · rw [if_neg hle]; simp [hle]
  · norm_num [threshLabel]

theorem create_df_round_mean_threshold_witness :
    create_df witnessDir 1 "1.0".toList (1/2) "metrics" = .ok witnessDf ∧
    ((∀ pr ∈ witnessDf.seedCols, ∃ fp ∈ matchedFiles witnessDir 1 "1.0".toList, ∃ c,
        getCol fp.2 "pred" = .ok c ∧ pr.2 = npRound3Col c) ∧
      witnessDf.pred = nanmeanRows (witnessDf.seedCols.map Prod.snd)
        ((witnessDf.seedCols.map Prod.snd).headD []).length ∧
      witnessDf.pred_round = witnessDf.pred.map (fun p => threshLabel p (1/2))) := by
  have hok : create_df witnessDir 1 "1.0".toList (1/2) "metrics" = .ok witnessDf := by
    with_unfolding_all rfl
  exact ⟨hok,
    (create_df_round_mean_threshold witnessDir 1 "1.0".toList (1/2) "metrics"
      witnessDf).1 hok⟩

theorem globMatch_cons_eq (c : Char) (hstar : ¬ c = '*') (p s : List Char) :
    globMatch (c :: p) (c :: s) = globMatch p s := by
  rw [globMatch, if_neg hstar]
  simp

theorem globMatch_cons_ne (c d : Char) (hstar : ¬ c = '*') (hne : ¬ c = d)
    (p s : List Char) : globMatch (c :: p) (d :: s) = false := by
  rw [globMatch, if_neg hstar]
  simp [hne]

theorem histories_name_no_match (epochs : ℕ) (bal : List Char) :
    globMatch (predvalPattern epochs bal)
      ("histories_i".toList ++ fmt04 epochs ++ "_b".toList ++ bal ++
        ".txt".toList) = false := by
  rw [show predvalPattern epochs bal =
      'p' :: ("redval*i".toList ++ (fmt04 epochs ++ ("*_b".toList ++ (bal ++ ".txt".toList))))
    from by simp only [predvalPattern, List.append_assoc]; rfl]
  rw [show "histories_i".toList ++ fmt04 epochs ++ "_b".toList ++ bal ++ ".txt".toList =
      'h' :: ("istories_i".toList ++ (fmt04 epochs ++ ("_b".toList ++ (bal ++ ".txt".toList))))
    from by simp only [List.append_assoc]; rfl]
  exact globMatch_cons_ne 'p' 'h' (by decide) (by decide) _ _

theorem predtest_name_no_match (epochs : ℕ) (bal : List Char) :
    globMatch (predvalPattern epochs bal)
      ("predtest_i".toList ++ fmt04 epochs ++ "_b".toList ++ bal ++
        ".txt".toList) = false := by
  rw [show predvalPattern epochs bal =
      'p' :: 'r' :: 'e' :: 'd' :: 'v' ::
        ("al*i".toList ++ (fmt04 epochs ++ ("*_b".toList ++ (bal ++ ".txt".toList))))
    from by simp only [predvalPattern, List.append_assoc]; rfl]
  rw [show "predtest_i".toList ++ fmt04 epochs ++ "_b".toList ++ bal ++ ".txt".toList =
      'p' :: 'r' :: 'e' :: 'd' :: 't' ::
        ("est_i".toList ++ (fmt04 epochs ++ ("_b".toList ++ (bal ++ ".txt".toList))))
    from by simp only [List.append_assoc]; rfl]
  rw [globMatch_cons_eq 'p' (by decide), globMatch_cons_eq 'r' (by decide),
    globMatch_cons_eq 'e' (by decide), globMatch_cons_eq 'd' (by decide)]
  exact globMatch_cons_ne 'v' 't' (by decide) (by decide) _ _

theorem fmt04_length_ge (s : ℕ) : 4 ≤ (fmt04 s).length := by
  unfold fmt04
  dsimp only
  rw [List.length_append, List.length_replicate]
  omega

theorem pred_s_name_not_pred (s : ℕ) :
    (String.mk ("pred_s".toList ++ fmt04 s) == "pred") = false := by
  rw [beq_eq_false_iff_ne]
  intro h
  have hd : ('p' :: 'r' :: 'e' :: 'd' :: '_' :: 's' :: fmt04 s) =
      ['p', 'r', 'e', 'd'] := congrArg String.data h
  exact absurd hd (by simp)

theorem valTable_pred_lookup_fails (seeds : List ℕ) (valPreds : ℕ → List (Option ℚ))
    (tic gt tpeak : List (Option ℚ)) :
    getCol (trainModelsValTable seeds valPreds tic gt tpeak) "pred" =
      .error (.keyError "pred") := by
  unfold getCol trainModelsValTable
  have hnone :
      (([("tic", tic), ("gt", gt), ("tpeak", tpeak)] ++
        seeds.map (fun s => (String.mk ("pred_s".toList ++ fmt04 s), valPreds s))).find?
          (fun c => c.1 == "pred")) = none := by
    rw [List.find?_append]
    have h1 : ([("tic", tic), ("gt", gt), ("tpeak", tpeak)].find?
        (fun c => c.1 == "pred")) = none := by
      simp [List.find?]
    have h2 : ((seeds.map
        (fun s => (String.mk ("pred_s".toList ++ fmt04 s), valPreds s))).find?
          (fun c => c.1 == "pred")) = none := by
      rw [List.find?_eq_none]
      intro x hx
      obtain ⟨s, _, rfl⟩ := List.mem_map.mp hx
      intro hb
      have hb2 : (String.mk ("pred_s".toList ++ fmt04 s) == "pred") = true := hb
      rw [pred_s_name_not_pred s] at hb2
      exact Bool.noConfusion hb2
    rw [h1, h2]
    rfl
  rw [hnone]

theorem matchedFiles_of_saved_dir (seeds : List ℕ) (epochs : ℕ) (bal : List Char)
    (valPreds : ℕ → List (Option ℚ)) (tic gt tpeak : List (Option ℚ))
    (histTable testTable : PredTable) (savesTest : Bool) :
    matchedFiles
        (trainModelsSavedDir seeds epochs bal valPreds tic gt tpeak histTable
          testTable savesTest) epochs bal =
      [(trainModelsPredvalName epochs bal,
        trainModelsValTable seeds valPreds tic gt tpeak)] := by
  unfold matchedFiles trainModelsSavedDir
  cases savesTest <;>
    simp [List.filter_append, List.filter_cons, List.filter_nil,
      histories_name_no_match, predtest_name_no_match,
      trainModels_name_matches_pattern, List.insertionSort, List.orderedInsert]

theorem predval_i_prefix_ne (A B : List Char) :
    ¬ ("predval_i".toList ++ A = "predval_s".toList ++ B) := by
  intro h
  have h9 := congrArg (List.take 9) h
  rw [List.take_append_of_le_length (by decide),
    List.take_append_of_le_length (by decide)] at h9
  exact absurd h9 (by decide)

/-- C9: the save-then-aggregate round trip of the ensemble pipeline is
broken.  `train_models` with `save=True` writes ONE validation-prediction
file (seed-suffixed `pred_s{seed:04d}` columns, no per-seed files) whose
name `create_df`'s `predval*` glob does match — but then (a) in the
default `'metrics'` mode `create_df` aborts with the insufficient-models
`ValueError` because it finds a single file instead of one per seed, (b)
in any mode it fails before producing a table, since it reads a column
literally named `pred` that the saved table does not have, and (c) the
per-seed filename template `predval_fmt` of `__init__` differs from the
written filename for every seed — it is never used when saving. -/
theorem save_aggregate_round_trip_broken (seeds : List ℕ) (epochs : ℕ)
    (bal : List Char) (valPreds : ℕ → List (Option ℚ))
    (tic gt tpeak : List (Option ℚ)) (histTable testTable : PredTable)
    (savesTest : Bool) (threshold : ℚ) :
    matchedFiles
        (trainModelsSavedDir seeds epochs bal valPreds tic gt tpeak histTable
          testTable savesTest) epochs bal =
      [(trainModelsPredvalName epochs bal,
        trainModelsValTable seeds valPreds tic gt tpeak)] ∧
    create_df
        (trainModelsSavedDir seeds epochs bal valPreds tic gt tpeak histTable
          testTable savesTest) epochs bal threshold "metrics" =
      .error insufficientModelsError ∧
    (∀ mode, (create_df
        (trainModelsSavedDir seeds epochs bal valPreds tic gt tpeak histTable
          testTable savesTest) epochs bal threshold mode).isOk = false) ∧
    (∀ seed, (trainModelsPredvalName epochs bal = predvalFmt seed epochs bal) = False) := by
  have hmf := matchedFiles_of_saved_dir seeds epochs bal valPreds tic gt tpeak
    histTable testTable savesTest
  refine ⟨hmf, ?_, ?_, ?_⟩
  · unfold create_df
    dsimp only
    rw [hmf, if_pos (by simp)]
  · intro mode
    unfold create_df
    dsimp only
    rw [hmf]
    by_cases hm : (mode == "metrics") = true
    · rw [if_pos (by simp [hm])]
      rfl
    · rw [if_neg (by simp [hm])]
      rw [show readSeedCols
          [(trainModelsPredvalName epochs bal,
            trainModelsValTable seeds valPreds tic gt tpeak)] =
          .error (.keyError "pred") from by
        rw [readSeedCols, valTable_pred_lookup_fails]]
      rfl
  · intro seed
    refine eq_false ?_
    intro h
    rw [show trainModelsPredvalName epochs bal =
        "predval_i".toList ++ (fmt04 epochs ++ ("_b".toList ++ (bal ++ ".txt".toList)))
      from by simp only [trainModelsPredvalName, List.append_assoc],
      show predvalFmt seed epochs bal =
        "predval_s".toList ++ (fmt04 seed ++ ("_i".toList ++ (fmt04 epochs ++
          ("_b".toList ++ (bal ++ ".txt".toList)))))
      from by simp only [predvalFmt, List.append_assoc]] at h
    exact predval_i_prefix_ne _ _ h

/-- C3: `ensemble_metrics` raises before assigning any metric attribute,
for every input table and every behaviour of the sklearn scorers: it
never returns successfully (so `average_precision`, `accuracy`,
`recall_score`, `precision_score` and `prec_recall_curve` are never set);
with at least one column after index 4 (and a readable `gt` column, the
first lookup of the loop body) the exception is the `NameError` on the
unbound name `threshold`; with no such column (and readable `gt`,
`pred_round`, `pred` columns) it is the `IndexError` of `ap[-1]` on the
empty average-precision list. -/
theorem ensemble_metrics_never_sets_attributes
    (df : List (String × List ℚ)) (apScore recallFn precFn : List ℚ → List ℚ → ℚ)
    (curveFn : List ℚ → List ℚ → List ℚ × List ℚ) :
    (ensemble_metrics df apScore recallFn precFn curveFn).isOk = false ∧
    (df.drop 4 ≠ [] → (∃ g, getColQ df "gt" = .ok g) →
      ensemble_metrics df apScore recallFn precFn curveFn =
        .error (.nameError "threshold")) ∧
    (df.drop 4 = [] → (∃ g, getColQ df "gt" = .ok g) →
      (∃ g, getColQ df "pred_round" = .ok g) → (∃ g, getColQ df "pred" = .ok g) →
      ensemble_metrics df apScore recallFn precFn curveFn = .error .indexError) := by
  have hthresh : resolveName metricsLocalNames "threshold" =
      .error (.nameError "threshold") := rfl
  have hstep : ∀ acc col, metricsLoopStep df apScore acc col =
      (match getColQ df "gt" with
       | .error err => .error err
       | .ok _ => .error (.nameError "threshold")) := by
    intro acc col
    unfold metricsLoopStep
    cases hg : getColQ df "gt" with
    | error err => rfl
    | ok g => dsimp only; rw [hthresh]
  have hloop : ∀ c rest acc, metricsLoop df apScore acc (c :: rest) =
      (match getColQ df "gt" with
       | .error err => .error err
       | .ok _ => .error (.nameError "threshold")) := by
    intro c rest acc
    rw [metricsLoop, hstep]
    cases hg : getColQ df "gt" with
    | error err => simp
    | ok g => simp
  refine ⟨?_, ?_, ?_⟩
  · unfold ensemble_metrics
    rcases hdrop : df.drop 4 with _ | ⟨c, rest⟩
    · rw [show metricsLoop df apScore ([], []) [] = .ok ([], []) from rfl]
      dsimp only
      cases h3 : getColQ df "gt" with
      | error e => rfl
      | ok g =>
        dsimp only
        cases h4 : getColQ df "pred_round" with
        | error e => rfl
        | ok pr =>
          dsimp only
          cases h5 : getColQ df "pred" with
          | error e => rfl
          | ok pd => rfl
    · rw [hloop]
      cases h3 : getColQ df "gt" with
      | error e => rfl
      | ok g => rfl
  · intro hne hgt
    obtain ⟨g, hg⟩ := hgt
    rcases hdrop : df.drop 4 with _ | ⟨c, rest⟩
    · exact absurd hdrop hne
    · unfold ensemble_metrics
      rw [hdrop, hloop, hg]
  · intro hdrop hgt hpr hpd
    obtain ⟨g, hg⟩ := hgt
    obtain ⟨pr, hp⟩ := hpr
    obtain ⟨pd, hq⟩ := hpd
    unfold ensemble_metrics
    rw [hdrop]
    rw [show metricsLoop df apScore ([], []) [] = .ok ([], []) from rfl]
    dsimp only
    rw [hg]
    dsimp only
    rw [hp]
    dsimp only
    rw [hq]
    rfl

theorem ensemble_metrics_never_sets_attributes_witness :
    (ensemble_metrics
        [("gt", [1]), ("pred_round", [1]), ("pred", [1]), ("x", [1]), ("s0001", [1])]
        (fun _ _ => 0) (fun _ _ => 0) (fun _ _ => 0)
        (fun _ _ => ([], []))).isOk = false ∧
    ensemble_metrics
        [("gt", [1]), ("pred_round", [1]), ("pred", [1]), ("x", [1]), ("s0001", [1])]
        (fun _ _ => 0) (fun _ _ => 0) (fun _ _ => 0) (fun _ _ => ([], [])) =
      .error (.nameError "threshold") ∧
    ensemble_metrics [("gt", [1]), ("pred_round", [1]), ("pred", [1])]
        (fun _ _ => 0) (fun _ _ => 0) (fun _ _ => 0) (fun _ _ => ([], [])) =
      .error .indexError := by
  refine ⟨(ensemble_metrics_never_sets_attributes _ _ _ _ _).1,
    (ensemble_metrics_never_sets_attributes _ _ _ _ _).2.1 (by simp) ⟨[1], rfl⟩,
    (ensemble_metrics_never_sets_attributes _ _ _ _ _).2.2 rfl ⟨[1], rfl⟩
      ⟨[1], rfl⟩ ⟨[1], rfl⟩⟩

/-- C10 (code bug): when no output directory is supplied, `~/.stella`
does not exist and `os.mkdir` fails, `fetch_dir` does NOT recover by
falling back to the current directory as its own docstring and the spec
describe: the handler evaluates `warnings.warn(...)` but the module never
imports `warnings`, so a `NameError` escapes before `self.output_dir` is
assigned.  The healthy paths return `~/.stella` as documented. -/
theorem fetch_dir_fallback_raises :
    fetch_dir false false = .error (.nameError "warnings") ∧
    fetch_dir true false = .ok "~/.stella" ∧
    fetch_dir true true = .ok "~/.stella" ∧
    fetch_dir false true = .ok "~/.stella" :=
  ⟨rfl, rfl, rfl, rfl⟩

end Stella
